import Mathlib

/-!
Verification of the message-segment conversion pipeline of nekro-agent
(`nekro_agent/systems/message/convertor.py`).

The pipeline decodes OneBot wire segments into typed internal chat-message
segments (`convert_chat_message`), serializes segment lists into a
marker-delimited prompt string (`convert_chat_message_to_prompt_str`), and
re-renders persisted JSON records (`convert_raw_msg_data_json_to_msg_prompt`).

External collaborators (resource fetching, identity lookup, configuration)
are parameters of the embedding: the theorems hold for every choice of
collaborator functions.  Logging is modelled by a count of warnings emitted
during a conversion.  Fallible operations return `Except`.
-/

namespace NekroAgent

/-- The internal segment type: `ChatMessageSegment` and its subclasses
`ChatMessageSegmentImage`, `ChatMessageSegmentFile`, `ChatMessageSegmentAt`
from `nekro_agent.schemas.chat_message`, embedded as a sum type.  The base
class case carries only the `text` payload (the TEXT segment kind). -/
inductive ChatMessageSegment where
  | text (text : String)
  | image (text fileName localPath remoteUrl : String)
  | file (text fileName localPath : String)
  | atSeg (text targetQQ targetNickname : String)
deriving DecidableEq, Repr

/-- A OneBot wire segment: a kind tag and a key/value data payload.
The payload is an association list (first match wins, as in a dict). -/
structure OBSegment where
  type : String
  data : List (String × String)
deriving DecidableEq, Repr

/-- The slice of a OneBot event that `convert_chat_message` reads:
whether it is a `GroupMessageEvent`, its `group_id`, and its message. -/
structure OBEvent where
  isGroup : Bool
  groupId : String
  message : List OBSegment
deriving DecidableEq, Repr

/-- The configuration values read by the converter: `str(config.BOT_QQ)`
(the agent's own identifier) and `config.AI_CHAT_PRESET_NAME`
(the persona name). -/
structure ConvConfig where
  BOT_QQ : String
  AI_CHAT_PRESET_NAME : String

/-- The external collaborators called by the converter, as abstract
functions: `download_file url use_suffix = (local_path, file_name)`,
`move_to_upload_dir path use_suffix = (local_path, file_name)`,
`get_user_group_card_name group_id user_id = name`. -/
structure Collaborators where
  download_file : String → String → String × String
  move_to_upload_dir : String → String → String × String
  get_user_group_card_name : String → String → String

/-- Errors the conversion can raise: the failed
`assert isinstance(ob_event, GroupMessageEvent)` on a mention outside a
group, and a missing dict key (`seg.data` subscripting). -/
inductive ConvError where
  | assertionError
  | keyError (key : String)
deriving DecidableEq, Repr

/-- Dictionary lookup on a wire payload, `seg.data[key]` / `key in seg.data`. -/
def dget (key : String) : List (String × String) → Option String
  | [] => none
  | (k, v) :: rest => if k = key then some v else dget key rest

/-- Python `s.split(".")` over the character list: split at every dot;
the result is always non-empty ("abc" gives ["abc"], "" gives [""]). -/
def split_dot : List Char → List (List Char)
  | [] => [[]]
  | c :: rest =>
    match split_dot rest with
    | [] => [[]]
    | h :: t => if c = '.' then [] :: h :: t else (c :: h) :: t

/-- Python `s.lower()` restricted to the ASCII letters that occur in file
suffixes, over the character list. -/
def str_lower (s : String) : String :=
  String.mk (s.data.map Char.toLower)

/-- Python `s.split(".")[-1]`. -/
def last_dot_component (f : String) : String :=
  String.mk ((split_dot f.data).getLastD [])

/-- The suffix computation of the image branch:
`"." + seg.data["file"].split(".")[-1].lower()` guarded by
`try/except` (the only possible exception is the missing `"file"` key,
which yields `""`). -/
def image_suffix (data : List (String × String)) : String :=
  match dget "file" data with
  | none => ""
  | some f => "." ++ str_lower (last_dot_component f)

/-- Python `s.startswith("file:")`. -/
def starts_with_file_colon (s : String) : Bool :=
  s.data.take 5 = "file:".data

/-- Python `s[len("file:"):]`, dropping the five scheme characters. -/
def drop_file_colon (s : String) : String :=
  String.mk (s.data.drop 5)

/-- Whether a wire segment is an explicit mention of the agent itself:
kind `at` with `str(seg.data["qq"]) == str(config.BOT_QQ)`. -/
def is_self_at (cfg : ConvConfig) (seg : OBSegment) : Bool :=
  seg.type == "at" && dget "qq" seg.data == some cfg.BOT_QQ

/-- One iteration of the decoding loop of `convert_chat_message`: the
segments appended for this wire segment (zero or one), the contribution to
`is_tome`, and the number of warnings logged. -/
def convert_seg (cfg : ConvConfig) (col : Collaborators) (ev : OBEvent)
    (seg : OBSegment) : Except ConvError (List ChatMessageSegment × Bool × Nat) :=
  if seg.type = "text" then
    .ok ([.text ((dget "text" seg.data).getD "")], false, 0)
  else if seg.type = "image" then
    let suffix := image_suffix seg.data
    match dget "url" seg.data with
    | some remoteUrl =>
      let (localPath, fileName) := col.download_file remoteUrl suffix
      .ok ([.image "" fileName localPath remoteUrl], false, 0)
    | none =>
      match dget "file" seg.data with
      | some f =>
        let segLocalPath := if starts_with_file_colon f then drop_file_colon f else f
        let (localPath, fileName) := col.move_to_upload_dir segLocalPath suffix
        .ok ([.image "" fileName localPath ""], false, 0)
      | none =>
        -- logger.warning("OneBot image message without url: ..."); continue
        .ok ([], false, 1)
  else if seg.type = "at" then
    if ev.isGroup then
      match dget "qq" seg.data with
      | some q =>
        if q = cfg.BOT_QQ then
          .ok ([.atSeg "" cfg.BOT_QQ cfg.AI_CHAT_PRESET_NAME], true, 0)
        else
          .ok ([.atSeg "" q (col.get_user_group_card_name ev.groupId q)], false, 0)
      | none => .error (.keyError "qq")
    else .error .assertionError
  else if seg.type = "file" then
    -- `...` in the source: skipped with no output and no log
    .ok ([], false, 0)
  else
    -- no matching branch: skipped silently
    .ok ([], false, 0)

/-- The decoding loop of `convert_chat_message` over the whole wire
message, accumulating the output list in order, `is_tome` by disjunction,
and the warning count. -/
def convert_pass (cfg : ConvConfig) (col : Collaborators) (ev : OBEvent) :
    List OBSegment → Except ConvError (List ChatMessageSegment × Bool × Nat)
  | [] => .ok ([], false, 0)
  | seg :: rest =>
    match convert_seg cfg col ev seg with
    | .error e => .error e
    | .ok (l1, t1, w1) =>
      match convert_pass cfg col ev rest with
      | .error e => .error e
      | .ok (l2, t2, w2) => .ok (l1 ++ l2, t1 || t2, w1 + w2)

/-- The synthetic self-mention segment inserted at index 0 when
`msg_to_me` is set and no explicit self-mention was decoded. -/
def synthetic_self_at (cfg : ConvConfig) : ChatMessageSegment :=
  .atSeg "" cfg.BOT_QQ cfg.AI_CHAT_PRESET_NAME

/-- `convert_chat_message(ob_event, msg_to_me)`: run the decoding loop,
then possibly insert the synthetic self-mention at index 0, and return
`(ret_list, is_tome)` together with the warning count. -/
def convert_chat_message (cfg : ConvConfig) (col : Collaborators)
    (ev : OBEvent) (msg_to_me : Bool) :
    Except ConvError (List ChatMessageSegment × Bool × Nat) :=
  match convert_pass cfg col ev ev.message with
  | .error e => .error e
  | .ok (retList, isTome, w) =>
    if msg_to_me && !isTome then
      .ok (synthetic_self_at cfg :: retList, isTome, w)
    else
      .ok (retList, isTome, w)

/-- The marker (or verbatim text) contributed by one segment in
`convert_chat_message_to_prompt_str`, parameterized by
`get_downloaded_prompt_file_path` (`promptPathFor`). -/
def seg_to_prompt (promptPathFor : String → String) (oneTimeCode : String) :
    ChatMessageSegment → String
  | .image _ fileName _ _ =>
      "<" ++ oneTimeCode ++ " | Image:" ++ promptPathFor fileName ++ ">"
  | .file _ fileName _ =>
      "<" ++ oneTimeCode ++ " | File:" ++ promptPathFor fileName ++ ">"
  | .atSeg _ targetQQ targetNickname =>
      "<" ++ oneTimeCode ++ " | At:[@qq:" ++ targetQQ ++ ";nickname:"
        ++ targetNickname ++ "@]>"
  | .text t => t

/-- `convert_chat_message_to_prompt_str(chat_message, one_time_code)`:
left-to-right accumulation of each segment's contribution. -/
def convert_chat_message_to_prompt_str (promptPathFor : String → String)
    (chatMessage : List ChatMessageSegment) (oneTimeCode : String) : String :=
  chatMessage.foldl (fun acc seg => acc ++ seg_to_prompt promptPathFor oneTimeCode seg) ""

/-- A persisted raw segment record: a tagged object from the JSON array
stored in the database. -/
structure RawRec where
  type : String
  data : List (String × String)
deriving DecidableEq, Repr

/-- Modelled from the spec: `segments_from_list` of
`nekro_agent.schemas.chat_message` is not among the shown sources; per the
spec it deserializes a JSON array of tagged segment objects mirroring the
internal variant set, and an unknown tagged variant is a hard decoding
error.  `rec_to_segment` deserializes one tagged record. -/
def rec_to_segment (r : RawRec) : Except String ChatMessageSegment :=
  if r.type = "text" then
    .ok (.text ((dget "text" r.data).getD ""))
  else if r.type = "image" then
    .ok (.image ((dget "text" r.data).getD "")
      ((dget "file_name" r.data).getD "") ((dget "local_path" r.data).getD "")
      ((dget "remote_url" r.data).getD ""))
  else if r.type = "file" then
    .ok (.file ((dget "text" r.data).getD "")
      ((dget "file_name" r.data).getD "") ((dget "local_path" r.data).getD ""))
  else if r.type = "at" then
    .ok (.atSeg ((dget "text" r.data).getD "")
      ((dget "target_qq" r.data).getD "") ((dget "target_nickname" r.data).getD ""))
  else
    .error ("Unknown segment type: " ++ r.type)

/-- The element-wise deserialization over the whole record list; the first
unknown variant aborts with its error. -/
def segments_from_list : List RawRec → Except String (List ChatMessageSegment)
  | [] => .ok []
  | r :: rest =>
    match rec_to_segment r with
    | .error e => .error e
    | .ok seg =>
      match segments_from_list rest with
      | .error e => .error e
      | .ok rest' => .ok (seg :: rest')

/-- The segment tags `segments_from_list` accepts. -/
def known_segment_types : List String := ["text", "image", "file", "at"]

/-- `convert_raw_msg_data_json_to_msg_prompt(json_data, one_time_code)`:
`json.loads` (modelled from the spec as an abstract parameter whose failure
is a hard decoding error), then `segments_from_list`, then the prompt
encoder; any error aborts the call with no partial prompt string. -/
def convert_raw_msg_data_json_to_msg_prompt
    (json_loads : String → Except String (List RawRec))
    (promptPathFor : String → String)
    (json_data one_time_code : String) : Except String String :=
  match json_loads json_data with
  | .error e => .error e
  | .ok recs =>
    match segments_from_list recs with
    | .error e => .error e
    | .ok segs =>
      .ok (convert_chat_message_to_prompt_str promptPathFor segs one_time_code)

/-! ### Concrete instances used by counterexamples and witnesses -/

/-- A concrete configuration: agent identifier "123", persona "Nekro". -/
def cfgEx : ConvConfig := ⟨"123", "Nekro"⟩

/-- Concrete collaborators returning fixed names. -/
def colEx : Collaborators :=
  ⟨fun _ _ => ("LP", "FN"), fun _ _ => ("LP2", "FN2"), fun _ u => "card-" ++ u⟩

/-- Collaborators whose fetchers echo the suffix they were passed, used to
observe the suffix hint. -/
def colProbe : Collaborators :=
  ⟨fun _ suf => (suf, suf), fun _ suf => (suf, suf), fun _ u => u⟩

end NekroAgent
namespace NekroAgent

/-! ### Structural lemmas about the conversion -/

/-- The `is_tome` contribution of a single wire segment is exactly
`is_self_at`. -/
theorem convert_seg_tome {cfg : ConvConfig} {col : Collaborators} {ev : OBEvent}
    {seg : OBSegment} {l : List ChatMessageSegment} {t : Bool} {w : Nat}
    (h : convert_seg cfg col ev seg = .ok (l, t, w)) : t = is_self_at cfg seg := by
  unfold convert_seg at h
  unfold is_self_at
  split_ifs at h with h1 h2 h3 h4
  · simp only [Except.ok.injEq, Prod.mk.injEq] at h
    rw [← h.2.1]
    simp [h1]
  · rw [show (seg.type == "at") = false by simp [h2]]
    simp only [Bool.false_and]
    split at h
    · simp only [Except.ok.injEq, Prod.mk.injEq] at h
      exact h.2.1.symm
    · split at h
      · simp only [Except.ok.injEq, Prod.mk.injEq] at h
        exact h.2.1.symm
      · simp only [Except.ok.injEq, Prod.mk.injEq] at h
        exact h.2.1.symm
  · split at h
    · rename_i q hq
      split at h
      · rename_i hbot
        simp only [Except.ok.injEq, Prod.mk.injEq] at h
        rw [← h.2.1]
        simp [h3, hq, hbot]
      · rename_i hbot
        simp only [Except.ok.injEq, Prod.mk.injEq] at h
        rw [← h.2.1]
        simp [h3, hq, hbot]
    · exact absurd h (by simp)
  · simp only [Except.ok.injEq, Prod.mk.injEq] at h
    obtain ⟨-, ht, -⟩ := h
    subst ht
    rw [show (seg.type == "at") = false by simp [h3]]
    simp
  · simp only [Except.ok.injEq, Prod.mk.injEq] at h
    obtain ⟨-, ht, -⟩ := h
    subst ht
    rw [show (seg.type == "at") = false by simp [h3]]
    simp

/-- Inversion of one successful step of the decoding loop. -/
theorem convert_pass_cons_ok {cfg : ConvConfig} {col : Collaborators} {ev : OBEvent}
    {seg : OBSegment} {rest : List OBSegment} {l : List ChatMessageSegment}
    {t : Bool} {w : Nat}
    (h : convert_pass cfg col ev (seg :: rest) = .ok (l, t, w)) :
    ∃ l1 t1 w1 l2 t2 w2, convert_seg cfg col ev seg = .ok (l1, t1, w1) ∧
      convert_pass cfg col ev rest = .ok (l2, t2, w2) ∧
      l = l1 ++ l2 ∧ t = (t1 || t2) ∧ w = w1 + w2 := by
  unfold convert_pass at h
  cases h1 : convert_seg cfg col ev seg with
  | error e => rw [h1] at h; exact absurd h (by simp)
  | ok x =>
    obtain ⟨l1, t1, w1⟩ := x
    rw [h1] at h
    cases h2 : convert_pass cfg col ev rest with
    | error e => rw [h2] at h; exact absurd h (by simp)
    | ok y =>
      obtain ⟨l2, t2, w2⟩ := y
      rw [h2] at h
      simp only [Except.ok.injEq, Prod.mk.injEq] at h
      exact ⟨l1, t1, w1, l2, t2, w2, rfl, rfl, h.1.symm, h.2.1.symm, h.2.2.symm⟩

/-- The `is_tome` flag computed by the decoding loop is exactly "some wire
segment is an explicit self-mention". -/
theorem convert_pass_tome {cfg : ConvConfig} {col : Collaborators} {ev : OBEvent} :
    ∀ {msgs : List OBSegment} {l : List ChatMessageSegment} {t : Bool} {w : Nat},
    convert_pass cfg col ev msgs = .ok (l, t, w) → t = msgs.any (is_self_at cfg)
  | [], l, t, w, h => by
    unfold convert_pass at h
    simp only [Except.ok.injEq, Prod.mk.injEq] at h
    simp [← h.2.1]
  | seg :: rest, l, t, w, h => by
    obtain ⟨l1, t1, w1, l2, t2, w2, h1, h2, -, ht, -⟩ := convert_pass_cons_ok h
    rw [ht, convert_seg_tome h1, convert_pass_tome h2]
    simp

/-- The decoding loop's output is the in-order concatenation of the
per-wire-segment outputs. -/
theorem convert_pass_flatten {cfg : ConvConfig} {col : Collaborators} {ev : OBEvent} :
    ∀ {msgs : List OBSegment} {l : List ChatMessageSegment} {t : Bool} {w : Nat},
    convert_pass cfg col ev msgs = .ok (l, t, w) →
    ∃ parts : List (List ChatMessageSegment),
      List.Forall₂ (fun s part => ∃ t' w',
        convert_seg cfg col ev s = .ok (part, t', w')) msgs parts ∧
      l = parts.flatten
  | [], l, t, w, h => by
    unfold convert_pass at h
    simp only [Except.ok.injEq, Prod.mk.injEq] at h
    exact ⟨[], List.Forall₂.nil, by simp [← h.1]⟩
  | seg :: rest, l, t, w, h => by
    obtain ⟨l1, t1, w1, l2, t2, w2, h1, h2, hl, -, -⟩ := convert_pass_cons_ok h
    obtain ⟨parts, hf, hfl⟩ := convert_pass_flatten h2
    exact ⟨l1 :: parts, List.Forall₂.cons ⟨t1, w1, h1⟩ hf, by simp [hl, hfl]⟩

/-- Inversion of a successful `convert_chat_message` call: the decoding
loop succeeded with the same flag and warning count, and the output list is
the loop's output with the synthetic self-mention possibly in front. -/
theorem convert_chat_message_ok {cfg : ConvConfig} {col : Collaborators}
    {ev : OBEvent} {m : Bool} {segs : List ChatMessageSegment} {t : Bool} {w : Nat}
    (h : convert_chat_message cfg col ev m = .ok (segs, t, w)) :
    ∃ l, convert_pass cfg col ev ev.message = .ok (l, t, w) ∧
      segs = if m && !t then synthetic_self_at cfg :: l else l := by
  unfold convert_chat_message at h
  cases hp : convert_pass cfg col ev ev.message with
  | error e => rw [hp] at h; exact absurd h (by simp)
  | ok x =>
    obtain ⟨l, t', w'⟩ := x
    rw [hp] at h
    dsimp only at h
    by_cases hc : (m && !t') = true
    · rw [if_pos hc] at h
      simp only [Except.ok.injEq, Prod.mk.injEq] at h
      obtain ⟨hs, ht, hw⟩ := h
      subst ht; subst hw
      exact ⟨l, rfl, by rw [if_pos hc, ← hs]⟩
    · rw [if_neg hc] at h
      simp only [Except.ok.injEq, Prod.mk.injEq] at h
      obtain ⟨hs, ht, hw⟩ := h
      subst ht; subst hw
      exact ⟨l, rfl, by rw [if_neg hc, ← hs]⟩

end NekroAgent
namespace NekroAgent

/-! ### Claims -/

/-- C1: the claim as stated is false on the code: with `msg_to_me = true`
and no self-mention in the wire message, the synthetic mention is prepended
but the returned `is_tome` flag stays `false` (the source never sets it in
the insertion branch).  Concretely, on the empty group message with
`msg_to_me = true` the call returns the synthetic mention and the flag
`false`, so no run returns the flag `true`. -/
theorem c1_synthetic_mention_counterexample :
    convert_chat_message cfgEx colEx ⟨true, "g", []⟩ true
      = .ok ([ChatMessageSegment.atSeg "" "123" "Nekro"], false, 0) ∧
    ¬ ∃ segs w, convert_chat_message cfgEx colEx ⟨true, "g", []⟩ true
      = .ok (segs, true, w) := by
  refine ⟨rfl, ?_⟩
  rintro ⟨segs, w, h⟩
  rw [show convert_chat_message cfgEx colEx ⟨true, "g", []⟩ true
      = .ok ([ChatMessageSegment.atSeg "" "123" "Nekro"], false, 0) from rfl] at h
  simp at h

/-- C1 (amended): if `msg_to_me` is true, no wire segment is an explicit
mention of the agent, and the conversion succeeds, then the first returned
segment is the synthetic Mention with the agent's identifier and the
persona name — but the returned directed-at-agent flag remains `false`. -/
theorem c1_synthetic_mention_amended {cfg : ConvConfig} {col : Collaborators}
    {ev : OBEvent} {segs : List ChatMessageSegment} {t : Bool} {w : Nat}
    (hno : ∀ s ∈ ev.message, is_self_at cfg s = false)
    (hok : convert_chat_message cfg col ev true = .ok (segs, t, w)) :
    segs.head? = some (synthetic_self_at cfg) ∧ t = false := by
  obtain ⟨l, hp, hs⟩ := convert_chat_message_ok hok
  have ht : t = false := by
    rw [convert_pass_tome hp]
    simp only [List.any_eq_false]
    intro s hmem
    simp [hno s hmem]
  subst ht
  rw [if_pos (by decide)] at hs
  exact ⟨by rw [hs]; rfl, rfl⟩

/-- Witness for C1 (amended): a concrete one-text-segment group message
with `msg_to_me = true`. -/
theorem c1_synthetic_mention_witness :
    ([synthetic_self_at cfgEx, ChatMessageSegment.text "hi"].head?
       = some (synthetic_self_at cfgEx)) ∧ false = false :=
  @c1_synthetic_mention_amended cfgEx colEx ⟨true, "g", [⟨"text", [("text", "hi")]⟩]⟩
    [synthetic_self_at cfgEx, ChatMessageSegment.text "hi"] false 0
    (by decide) rfl

/-- C2: if the wire message already contains an explicit mention of the
agent's identifier, a successful conversion returns exactly the decoding
loop's output (no synthetic mention is inserted even with
`msg_to_me = true`); and in general the output is the loop's output with
at most one synthetic self-mention prepended. -/
theorem c2_self_mention_dedup {cfg : ConvConfig} {col : Collaborators}
    {ev : OBEvent} {m : Bool} {segs : List ChatMessageSegment} {t : Bool} {w : Nat}
    (hok : convert_chat_message cfg col ev m = .ok (segs, t, w)) :
    ((∃ s ∈ ev.message, is_self_at cfg s = true) →
      convert_pass cfg col ev ev.message = .ok (segs, t, w)) ∧
    (∃ core, convert_pass cfg col ev ev.message = .ok (core, t, w) ∧
      (segs = core ∨ segs = synthetic_self_at cfg :: core)) := by
  obtain ⟨l, hp, hs⟩ := convert_chat_message_ok hok
  constructor
  · rintro ⟨s, hmem, hself⟩
    have ht : t = true := by
      rw [convert_pass_tome hp]
      exact List.any_eq_true.mpr ⟨s, hmem, hself⟩
    subst ht
    rw [if_neg (by simp)] at hs
    rw [← hs] at hp
    exact hp
  · refine ⟨l, hp, ?_⟩
    by_cases hc : (m && !t) = true
    · rw [if_pos hc] at hs
      exact Or.inr hs
    · rw [if_neg hc] at hs
      exact Or.inl hs

/-- Witness for C2: a concrete group message that explicitly mentions the
agent; with `msg_to_me = true` the output equals the loop output. -/
theorem c2_self_mention_dedup_witness :
    ((∃ s ∈ [(⟨"at", [("qq", "123")]⟩ : OBSegment)], is_self_at cfgEx s = true) →
      convert_pass cfgEx colEx ⟨true, "g", [⟨"at", [("qq", "123")]⟩]⟩
          [⟨"at", [("qq", "123")]⟩]
        = .ok ([ChatMessageSegment.atSeg "" "123" "Nekro"], true, 0)) ∧
    (∃ core, convert_pass cfgEx colEx ⟨true, "g", [⟨"at", [("qq", "123")]⟩]⟩
          [⟨"at", [("qq", "123")]⟩]
        = .ok (core, true, 0) ∧
      ([ChatMessageSegment.atSeg "" "123" "Nekro"] = core ∨
       [ChatMessageSegment.atSeg "" "123" "Nekro"] = synthetic_self_at cfgEx :: core)) :=
  @c2_self_mention_dedup cfgEx colEx ⟨true, "g", [⟨"at", [("qq", "123")]⟩]⟩ true
    [ChatMessageSegment.atSeg "" "123" "Nekro"] true 0 rfl

/-- C3: a successful conversion returns, after discounting the at-most-one
prepended synthetic mention, exactly the in-order concatenation of the
lists decoded from the wire segments: no reordering. -/
theorem c3_order_preservation {cfg : ConvConfig} {col : Collaborators}
    {ev : OBEvent} {m : Bool} {segs : List ChatMessageSegment} {t : Bool} {w : Nat}
    (hok : convert_chat_message cfg col ev m = .ok (segs, t, w)) :
    ∃ core parts,
      (segs = core ∨ segs = synthetic_self_at cfg :: core) ∧
      core = parts.flatten ∧
      List.Forall₂ (fun s part => ∃ t' w',
        convert_seg cfg col ev s = .ok (part, t', w')) ev.message parts := by
  obtain ⟨l, hp, hs⟩ := convert_chat_message_ok hok
  obtain ⟨parts, hf, hfl⟩ := convert_pass_flatten hp
  refine ⟨l, parts, ?_, hfl, hf⟩
  by_cases hc : (m && !t) = true
  · rw [if_pos hc] at hs
    exact Or.inr hs
  · rw [if_neg hc] at hs
    exact Or.inl hs

/-- Witness for C3: a concrete two-segment message. -/
theorem c3_order_preservation_witness :
    ∃ core parts,
      ([ChatMessageSegment.text "a", ChatMessageSegment.text "b"] = core ∨
       [ChatMessageSegment.text "a", ChatMessageSegment.text "b"]
         = synthetic_self_at cfgEx :: core) ∧
      core = parts.flatten ∧
      List.Forall₂ (fun s part => ∃ t' w',
        convert_seg cfgEx colEx ⟨true, "g", [⟨"text", [("text", "a")]⟩, ⟨"text", [("text", "b")]⟩]⟩ s
          = .ok (part, t', w'))
        [⟨"text", [("text", "a")]⟩, ⟨"text", [("text", "b")]⟩] parts :=
  @c3_order_preservation cfgEx colEx
    ⟨true, "g", [⟨"text", [("text", "a")]⟩, ⟨"text", [("text", "b")]⟩]⟩ false
    [ChatMessageSegment.text "a", ChatMessageSegment.text "b"] false 0 rfl

end NekroAgent
namespace NekroAgent

/-- C4: the claim as stated is false on the code: a file-kind wire segment
is dropped *silently* — the source's `file` branch is a bare `...` with no
`logger.warning` call.  On the claim's own example `[Text "hi", File ...]`
the conversion succeeds with output `[Text "hi"]` and zero logged
warnings, contradicting "with a logged warning". -/
theorem c4_unsupported_kind_counterexample :
    convert_chat_message cfgEx colEx
        ⟨true, "g", [⟨"text", [("text", "hi")]⟩, ⟨"file", [("file", "doc.txt")]⟩]⟩ false
      = .ok ([ChatMessageSegment.text "hi"], false, 0) ∧
    ¬ ∃ l t n, convert_chat_message cfgEx colEx
        ⟨true, "g", [⟨"text", [("text", "hi")]⟩, ⟨"file", [("file", "doc.txt")]⟩]⟩ false
      = .ok (l, t, n) ∧ 1 ≤ n := by
  refine ⟨rfl, ?_⟩
  rintro ⟨l, t, n, h, hn⟩
  rw [show convert_chat_message cfgEx colEx
      ⟨true, "g", [⟨"text", [("text", "hi")]⟩, ⟨"file", [("file", "doc.txt")]⟩]⟩ false
      = .ok ([ChatMessageSegment.text "hi"], false, 0) from rfl] at h
  simp only [Except.ok.injEq, Prod.mk.injEq] at h
  omega

/-- C4 (amended): an image segment with neither a remote URL nor a local
file reference is omitted with one logged warning; a file-kind segment is
omitted with no output, *no* logged warning, and no error; and on the
example `[Text "hi", File ...]` the whole conversion succeeds with output
`[Text "hi"]` and no warning. -/
theorem c4_unsupported_kind_amended :
    (∀ (cfg : ConvConfig) (col : Collaborators) (ev : OBEvent)
        (d : List (String × String)), dget "url" d = none → dget "file" d = none →
      convert_seg cfg col ev ⟨"image", d⟩ = .ok ([], false, 1)) ∧
    (∀ (cfg : ConvConfig) (col : Collaborators) (ev : OBEvent)
        (d : List (String × String)),
      convert_seg cfg col ev ⟨"file", d⟩ = .ok ([], false, 0)) ∧
    (∀ (cfg : ConvConfig) (col : Collaborators),
      convert_chat_message cfg col
          ⟨true, "g", [⟨"text", [("text", "hi")]⟩, ⟨"file", [("file", "doc.txt")]⟩]⟩ false
        = .ok ([ChatMessageSegment.text "hi"], false, 0)) := by
  refine ⟨?_, ?_, ?_⟩
  · intro cfg col ev d hu hf
    simp [convert_seg, hu, hf]
  · intro cfg col ev d
    simp [convert_seg]
  · intro cfg col
    rfl

/-- Witness for C4 (amended): the three parts evaluated at concrete
inputs. -/
theorem c4_unsupported_kind_witness :
    convert_seg cfgEx colEx ⟨true, "g", []⟩ ⟨"image", [("x", "y")]⟩
      = .ok ([], false, 1) ∧
    convert_seg cfgEx colEx ⟨true, "g", []⟩ ⟨"file", [("file", "doc.txt")]⟩
      = .ok ([], false, 0) ∧
    convert_chat_message cfgEx colEx
        ⟨true, "g", [⟨"text", [("text", "hi")]⟩, ⟨"file", [("file", "doc.txt")]⟩]⟩ false
      = .ok ([ChatMessageSegment.text "hi"], false, 0) :=
  ⟨c4_unsupported_kind_amended.1 cfgEx colEx ⟨true, "g", []⟩ [("x", "y")] rfl rfl,
   c4_unsupported_kind_amended.2.1 cfgEx colEx ⟨true, "g", []⟩ [("file", "doc.txt")],
   c4_unsupported_kind_amended.2.2 cfgEx colEx⟩

/-- C5: when a wire image segment carries both a remote URL and a local
file reference, the remote-URL path is taken: the decoded Image segment's
`remote_url` is the wire URL (non-empty when the wire URL is), its local
path and file name come from `download_file`, and the result does not
depend on `move_to_upload_dir` (the relocation path is unused). -/
theorem c5_image_source_priority {cfg : ConvConfig} {col : Collaborators}
    {ev : OBEvent} {d : List (String × String)} {u f : String}
    (hu : dget "url" d = some u) (hf : dget "file" d = some f) (hne : u ≠ "") :
    convert_seg cfg col ev ⟨"image", d⟩
      = .ok ([ChatMessageSegment.image "" (col.download_file u (image_suffix d)).2
          (col.download_file u (image_suffix d)).1 u], false, 0) ∧
    (∀ col' : Collaborators, col'.download_file = col.download_file →
      convert_seg cfg col' ev ⟨"image", d⟩ = convert_seg cfg col ev ⟨"image", d⟩) ∧
    u ≠ "" := by
  have key : ∀ c : Collaborators, convert_seg cfg c ev ⟨"image", d⟩
      = .ok ([ChatMessageSegment.image "" (c.download_file u (image_suffix d)).2
          (c.download_file u (image_suffix d)).1 u], false, 0) := by
    intro c
    rcases hdf : c.download_file u (image_suffix d) with ⟨lp, fn⟩
    simp [convert_seg, hu, hdf]
  refine ⟨key col, ?_, hne⟩
  intro col' hcol
  rw [key col', key col, hcol]

/-- Witness for C5: a concrete image segment carrying both sources. -/
theorem c5_image_source_priority_witness :
    convert_seg cfgEx colEx ⟨true, "g", []⟩
        ⟨"image", [("url", "http://x/y.png"), ("file", "a.PNG")]⟩
      = .ok ([ChatMessageSegment.image ""
          (colEx.download_file "http://x/y.png"
            (image_suffix [("url", "http://x/y.png"), ("file", "a.PNG")])).2
          (colEx.download_file "http://x/y.png"
            (image_suffix [("url", "http://x/y.png"), ("file", "a.PNG")])).1
          "http://x/y.png"], false, 0) ∧
    (∀ col' : Collaborators, col'.download_file = colEx.download_file →
      convert_seg cfgEx col' ⟨true, "g", []⟩
          ⟨"image", [("url", "http://x/y.png"), ("file", "a.PNG")]⟩
        = convert_seg cfgEx colEx ⟨true, "g", []⟩
            ⟨"image", [("url", "http://x/y.png"), ("file", "a.PNG")]⟩) ∧
    ("http://x/y.png" : String) ≠ "" :=
  @c5_image_source_priority cfgEx colEx ⟨true, "g", []⟩
    [("url", "http://x/y.png"), ("file", "a.PNG")] "http://x/y.png" "a.PNG"
    rfl rfl (by decide)

/-- C6: encoding the single Image segment with file name `img1.png` under
one-time code `OTC1` yields exactly the marker
`<OTC1 | Image:` + promptPathFor `img1.png` + `>`, with no surrounding
whitespace, for every path-resolution function and any stored local
path. -/
theorem c6_marker_exactness (promptPathFor : String → String) (lp : String) :
    convert_chat_message_to_prompt_str promptPathFor
        [ChatMessageSegment.image "" "img1.png" lp "http://x/y.png"] "OTC1"
      = "<OTC1 | Image:" ++ promptPathFor "img1.png" ++ ">" := by
  simp [convert_chat_message_to_prompt_str, seg_to_prompt]

/-- C7: the claim as stated is false on the code: for a wire file name
with no dot (hence no extension), the suffix hint is not the empty string
— it is "." followed by the whole lower-cased name.  Concretely, with the
wire file name `NOEXT` the fetcher receives `.noext`, observable through a
probing fetcher that echoes its suffix argument. -/
theorem c7_suffix_default_counterexample :
    image_suffix [("file", "NOEXT"), ("url", "u")] = ".noext" ∧
    convert_seg cfgEx colProbe ⟨true, "g", []⟩
        ⟨"image", [("file", "NOEXT"), ("url", "u")]⟩
      = .ok ([ChatMessageSegment.image "" ".noext" ".noext" "u"], false, 0) ∧
    (".noext" : String) ≠ "" := by
  exact ⟨by decide, rfl, by decide⟩

/-- C7 (amended): the suffix hint passed to the fetch is `image_suffix`:
it is the empty string exactly when the wire file name field is absent;
when a file name is present it is "." followed by the lower-cased part
after the last dot (the whole lower-cased name if the name has no dot). -/
theorem c7_suffix_default_amended {cfg : ConvConfig} {col : Collaborators}
    {ev : OBEvent} {d : List (String × String)} {u : String}
    (hu : dget "url" d = some u) :
    convert_seg cfg col ev ⟨"image", d⟩
      = .ok ([ChatMessageSegment.image "" (col.download_file u (image_suffix d)).2
          (col.download_file u (image_suffix d)).1 u], false, 0) ∧
    (dget "file" d = none → image_suffix d = "") ∧
    (∀ f, dget "file" d = some f →
      image_suffix d = "." ++ str_lower (last_dot_component f)) := by
  refine ⟨?_, ?_, ?_⟩
  · rcases hdf : col.download_file u (image_suffix d) with ⟨lp, fn⟩
    simp [convert_seg, hu, hdf]
  · intro hf
    simp [image_suffix, hf]
  · intro f hf
    simp [image_suffix, hf]

/-- Witness for C7 (amended): concrete segments with and without the wire
file name. -/
theorem c7_suffix_default_witness :
    (convert_seg cfgEx colProbe ⟨true, "g", []⟩ ⟨"image", [("url", "u")]⟩
      = .ok ([ChatMessageSegment.image ""
          (colProbe.download_file "u" (image_suffix [("url", "u")])).2
          (colProbe.download_file "u" (image_suffix [("url", "u")])).1 "u"],
        false, 0) ∧
    (dget "file" [("url", "u")] = none → image_suffix [("url", "u")] = "") ∧
    (∀ f, dget "file" [("url", "u")] = some f →
      image_suffix [("url", "u")] = "." ++ str_lower (last_dot_component f))) :=
  @c7_suffix_default_amended cfgEx colProbe ⟨true, "g", []⟩ [("url", "u")] "u" rfl

end NekroAgent
namespace NekroAgent

/-- A record whose tag is outside `known_segment_types` makes the whole
deserialization fail. -/
theorem segments_from_list_unknown {l : List RawRec} {r : RawRec}
    (hmem : r ∈ l) (hunk : r.type ∉ known_segment_types) :
    ∃ e, segments_from_list l = .error e := by
  induction l with
  | nil => cases hmem
  | cons a rest ih =>
    rcases List.mem_cons.mp hmem with hr | hr
    · subst hr
      have hs : r.type ≠ "text" ∧ r.type ≠ "image" ∧ r.type ≠ "file" ∧
          r.type ≠ "at" := by
        simpa [known_segment_types, not_or] using hunk
      have hrec : rec_to_segment r = .error ("Unknown segment type: " ++ r.type) := by
        unfold rec_to_segment
        rw [if_neg hs.1, if_neg hs.2.1, if_neg hs.2.2.1, if_neg hs.2.2.2]
      exact ⟨_, by unfold segments_from_list; rw [hrec]⟩
    · obtain ⟨e, he⟩ := ih hr
      cases hrs : rec_to_segment a with
      | error e' => exact ⟨e', by unfold segments_from_list; rw [hrs]⟩
      | ok s => exact ⟨e, by unfold segments_from_list; rw [hrs, he]⟩

/-- C8: a failing JSON parse, or a decoded record list containing an
unknown tagged variant, makes `convert_raw_msg_data_json_to_msg_prompt`
return an error — never a (partial) prompt string. -/
theorem c8_hard_decoding_error (json_loads : String → Except String (List RawRec))
    (promptPathFor : String → String) (json_data one_time_code : String)
    (h : (∃ e, json_loads json_data = .error e) ∨
         (∃ l r, json_loads json_data = .ok l ∧ r ∈ l ∧
            r.type ∉ known_segment_types)) :
    ∃ e, convert_raw_msg_data_json_to_msg_prompt json_loads promptPathFor
      json_data one_time_code = .error e := by
  rcases h with ⟨e, he⟩ | ⟨l, r, hl, hmem, hunk⟩
  · exact ⟨e, by unfold convert_raw_msg_data_json_to_msg_prompt; rw [he]⟩
  · obtain ⟨e, he⟩ := segments_from_list_unknown hmem hunk
    refine ⟨e, ?_⟩
    unfold convert_raw_msg_data_json_to_msg_prompt
    rw [hl]
    dsimp only
    rw [he]

/-- Witness for C8: a parser rejecting its input makes the call fail. -/
theorem c8_hard_decoding_error_witness :
    ∃ e, convert_raw_msg_data_json_to_msg_prompt
      (fun _ => .error "malformed JSON") (fun s => s) "not a json blob" "OTC1"
      = .error e :=
  c8_hard_decoding_error (fun _ => .error "malformed JSON") (fun s => s)
    "not a json blob" "OTC1" (Or.inl ⟨"malformed JSON", rfl⟩)

/-- C9: a group wire mention of the agent's own identifier decodes to the
Mention segment with the canonical identifier and the persona display
name, contributes `is_tome = true`, and the result does not depend on the
collaborators — in particular no group-card lookup is performed. -/
theorem c9_mention_tie_break {cfg : ConvConfig} {col : Collaborators}
    {ev : OBEvent} {d : List (String × String)} {q : String}
    (hg : ev.isGroup = true) (hq : dget "qq" d = some q)
    (heq : q = cfg.BOT_QQ) :
    convert_seg cfg col ev ⟨"at", d⟩
      = .ok ([ChatMessageSegment.atSeg "" cfg.BOT_QQ cfg.AI_CHAT_PRESET_NAME],
          true, 0) ∧
    (∀ col' : Collaborators,
      convert_seg cfg col' ev ⟨"at", d⟩ = convert_seg cfg col ev ⟨"at", d⟩) := by
  have key : ∀ c : Collaborators, convert_seg cfg c ev ⟨"at", d⟩
      = .ok ([ChatMessageSegment.atSeg "" cfg.BOT_QQ cfg.AI_CHAT_PRESET_NAME],
          true, 0) := by
    intro c
    simp [convert_seg, hg, hq, heq]
  exact ⟨key col, fun col' => by rw [key col', key col]⟩

/-- Witness for C9: the concrete mention of the agent's identifier. -/
theorem c9_mention_tie_break_witness :
    convert_seg cfgEx colEx ⟨true, "g", []⟩ ⟨"at", [("qq", "123")]⟩
      = .ok ([ChatMessageSegment.atSeg "" cfgEx.BOT_QQ cfgEx.AI_CHAT_PRESET_NAME],
          true, 0) ∧
    (∀ col' : Collaborators,
      convert_seg cfgEx col' ⟨true, "g", []⟩ ⟨"at", [("qq", "123")]⟩
        = convert_seg cfgEx colEx ⟨true, "g", []⟩ ⟨"at", [("qq", "123")]⟩) :=
  @c9_mention_tie_break cfgEx colEx ⟨true, "g", []⟩ [("qq", "123")] "123" rfl rfl rfl

/-- Accumulating the prompt from any initial string equals the initial
string followed by the accumulation from the empty string. -/
theorem prompt_foldl_init (promptPathFor : String → String) (otc : String)
    (l : List ChatMessageSegment) (a : String) :
    l.foldl (fun acc seg => acc ++ seg_to_prompt promptPathFor otc seg) a
      = a ++ l.foldl (fun acc seg => acc ++ seg_to_prompt promptPathFor otc seg) "" := by
  induction l generalizing a with
  | nil => simp
  | cons s rest ih =>
    simp only [List.foldl_cons]
    rw [ih (a ++ seg_to_prompt promptPathFor otc s),
      ih (("" : String) ++ seg_to_prompt promptPathFor otc s)]
    simp [String.append_assoc]

/-- C10: the prompt encoder is a concatenation homomorphism: it maps the
empty segment list to the empty string and list concatenation to string
concatenation, each segment contributing independently of its
neighbors. -/
theorem c10_encode_homomorphism (promptPathFor : String → String)
    (oneTimeCode : String) (xs ys : List ChatMessageSegment) :
    convert_chat_message_to_prompt_str promptPathFor (xs ++ ys) oneTimeCode
      = convert_chat_message_to_prompt_str promptPathFor xs oneTimeCode
        ++ convert_chat_message_to_prompt_str promptPathFor ys oneTimeCode ∧
    convert_chat_message_to_prompt_str promptPathFor [] oneTimeCode = "" := by
  refine ⟨?_, rfl⟩
  unfold convert_chat_message_to_prompt_str
  rw [List.foldl_append]
  exact prompt_foldl_init promptPathFor oneTimeCode ys _

end NekroAgent
